import Mathlib

/-!
Verification of the dryaf/templates engine (templates.go) against its
natural-language specification.  The Go code is shallowly embedded: pure
string manipulation becomes Lean functions on String, the template registry
(a Go map from composite keys to compiled units) becomes a key list with
map-insert semantics, Go errors become a structure of a sentinel kind plus a
message, and the external safehtml/template compiler and executor are
abstracted as explicit parameters (their internals are out of scope for the
engine).  Every definition follows the corresponding Go function line by
line; theorems then settle the specification's claims.
-/

namespace Templates

/-- strStartsWith models strings.HasPrefix(s, pre) on the character data,
so that it evaluates inside the kernel. -/
def strStartsWith (s pre : String) : Bool :=
  pre.data.isPrefixOf s.data

/-- strContainsChar models strings.Contains(s, sep) for a one-character
separator, on the character data. -/
def strContainsChar (s : String) (c : Char) : Bool :=
  s.data.contains c

/-- splitCharAux accumulates the current segment while splitting a
character list at every occurrence of the separator. -/
def splitCharAux (c : Char) : List Char → List Char → List String
  | [], acc => [String.mk acc.reverse]
  | x :: xs, acc =>
    if x = c then String.mk acc.reverse :: splitCharAux c xs []
    else splitCharAux c xs (x :: acc)

/-- splitOnChar splits a string at every occurrence of a character,
matching String.splitOn for a one-character separator. -/
def splitOnChar (s : String) (c : Char) : List String :=
  splitCharAux c s.data []

/-- GoVal models a Go value of interface type any, as far as the engine
observes it: whether it is nil, and what fmt.Sprint renders it as. -/
inductive GoVal where
  | nil
  | str (s : String)
  | int (n : Int)
  deriving DecidableEq, Inhabited

/-- goSprint models fmt.Sprint on a single GoVal. -/
def goSprint : GoVal → String
  | .nil => "<nil>"
  | .str s => s
  | .int n => toString n

/-- ErrKind models the sentinel error a Go error wraps, as tested by
errors.Is: ErrTemplateNotFound, ErrBlockNotFound, ErrInvalidBlockName from
templates.go lines 67-74, or none of those for a plain execution error. -/
inductive ErrKind where
  | templateNotFound
  | blockNotFound
  | invalidBlockName
  | execFailure
  deriving DecidableEq

/-- GoError models a Go error value built with fmt.Errorf: the sentinel
kind it wraps and the formatted detail text appended after it. -/
structure GoError where
  kind : ErrKind
  detail : String
  deriving DecidableEq

/-- SafeHTML models the safehtml.HTML wrapper: a string the engine will
emit verbatim into an HTML sink. -/
structure SafeHTML where
  s : String
  deriving DecidableEq

/-- SafeScript models the safehtml.Script wrapper. -/
structure SafeScript where
  s : String
  deriving DecidableEq

/-- SafeStyle models the safehtml.Style wrapper. -/
structure SafeStyle where
  s : String
  deriving DecidableEq

/-- SafeStyleSheet models the safehtml.StyleSheet wrapper. -/
structure SafeStyleSheet where
  s : String
  deriving DecidableEq

/-- SafeURL models the safehtml.URL wrapper. -/
structure SafeURL where
  s : String
  deriving DecidableEq

/-- SafeResourceURL models the safehtml.TrustedResourceURL wrapper. -/
structure SafeResourceURL where
  s : String
  deriving DecidableEq

/-- SafeIdentifier models the safehtml.Identifier wrapper. -/
structure SafeIdentifier where
  s : String
  deriving DecidableEq

/-- trustedHTML embeds templates.go lines 714-719: nil becomes the empty
trusted HTML value, anything else is wrapped verbatim via fmt.Sprint. -/
def trustedHTML (html : GoVal) : SafeHTML :=
  if html = GoVal.nil then ⟨""⟩ else ⟨goSprint html⟩

/-- trustedScript embeds templates.go lines 721-726. -/
def trustedScript (script : GoVal) : SafeScript :=
  if script = GoVal.nil then ⟨""⟩ else ⟨goSprint script⟩

/-- trustedStyle embeds templates.go lines 728-733. -/
def trustedStyle (style : GoVal) : SafeStyle :=
  if style = GoVal.nil then ⟨""⟩ else ⟨goSprint style⟩

/-- trustedStyleSheet embeds templates.go lines 735-740. -/
def trustedStyleSheet (ss : GoVal) : SafeStyleSheet :=
  if ss = GoVal.nil then ⟨""⟩ else ⟨goSprint ss⟩

/-- trustedURL embeds templates.go lines 742-747. -/
def trustedURL (url : GoVal) : SafeURL :=
  if url = GoVal.nil then ⟨""⟩ else ⟨goSprint url⟩

/-- trustedResourceURL embeds templates.go lines 749-754. -/
def trustedResourceURL (url : GoVal) : SafeResourceURL :=
  if url = GoVal.nil then ⟨""⟩ else ⟨goSprint url⟩

/-- trustedIdentifier embeds templates.go lines 756-761. -/
def trustedIdentifier (id : GoVal) : SafeIdentifier :=
  if id = GoVal.nil then ⟨""⟩ else ⟨goSprint id⟩

/-- GoMap models a Go map from string to GoVal as an association list whose
keys are unique when built by mapSet from the empty map. -/
abbrev GoMap := List (String × GoVal)

/-- mapSet models Go map assignment: overwrite the entry with the given key
when present, append a fresh entry otherwise. -/
def mapSet (m : GoMap) (k : String) (v : GoVal) : GoMap :=
  match m with
  | [] => [(k, v)]
  | (k', v') :: rest => if k' = k then (k, v) :: rest else (k', v') :: mapSet rest k v

/-- mapLookup models reading a Go map: the value stored at the key. -/
def mapLookup (m : GoMap) (k : String) : Option GoVal :=
  (m.find? (fun p => p.1 == k)).map Prod.snd

/-- localsLoop embeds the loop body of Locals, templates.go lines 769-775:
an even index stores the argument as the pending key, an odd index writes
the pending key (rendered with fmt.Sprint) with the argument as value. -/
def localsLoop (m : GoMap) (key : GoVal) (i : Nat) : List GoVal → GoMap
  | [] => m
  | arg :: rest =>
    if i % 2 == 0 then localsLoop m arg (i + 1) rest
    else localsLoop (mapSet m (goSprint key) arg) key (i + 1) rest

/-- Locals embeds templates.go lines 766-777: build a string-keyed map from
an alternating key/value argument list, starting from the empty map, the
zero index and the zero value of the pending key variable. -/
def Locals (args : List GoVal) : GoMap :=
  localsLoop [] GoVal.nil 0 args

/-- pairsOf lists the complete (key, value) pairs of an argument list:
elements at indices (2i, 2i+1); a trailing unpaired element yields none. -/
def pairsOf : List GoVal → List (GoVal × GoVal)
  | a :: b :: rest => (a, b) :: pairsOf rest
  | _ => []

/-- Registry models the engine's template map t.templates as the list of its
composite keys; the compiled units themselves are opaque to every claim. -/
abbrev Registry := List String

/-- registryInsert models Go map insertion observed on the key set: adding a
key that is already present leaves the key set unchanged. -/
def registryInsert (m : Registry) (k : String) : Registry :=
  if k ∈ m then m else m ++ [k]

/-- executeTemplateResolve embeds templates.go lines 412-444, the
determination of lookupName and execName from the shape of templateName:
a leading underscore selects block mode, a leading colon selects
layout-free page mode, any other colon selects the explicit layout, and
otherwise the layout override from the request context (when present) or
the configured default layout is joined with the name. -/
def executeTemplateResolve (defaultLayout : String) (layoutOverride : Option String)
    (templateName : String) : String × String :=
  if strStartsWith templateName "_" then
    (templateName, templateName)
  else if strStartsWith templateName ":" then
    (templateName, "page")
  else if strContainsChar templateName ':' then
    (templateName, "layout")
  else
    match layoutOverride with
    | some layout => (layout ++ ":" ++ templateName, "layout")
    | none => (defaultLayout ++ ":" ++ templateName, "layout")

/-- executeTemplate embeds templates.go lines 397-460 after the optional
reload step: resolve the name, look the key up in the registry, fail with
ErrTemplateNotFound carrying the attempted key on a miss, and otherwise
hand (lookupName, execName) to the underlying template executor. -/
def executeTemplate (defaultLayout : String) (layoutOverride : Option String)
    (registry : Registry) (templateName : String) : Except GoError (String × String) :=
  let r := executeTemplateResolve defaultLayout layoutOverride templateName
  if r.1 ∈ registry then .ok r
  else .error ⟨.templateNotFound, r.1⟩

/-- renderBlockAsHTMLString embeds templates.go lines 465-488: reject a name
without a leading underscore, then a name longer than 255 bytes, then a name
absent from the registry; otherwise execute the compiled unit's entry point
named name (abstracted as the execute argument, returning the buffer
contents and an optional execution error message) and wrap the buffer
verbatim as trusted HTML. -/
def renderBlockAsHTMLString (registry : Registry)
    (execute : String → GoVal → String × Option String)
    (name : String) (data : GoVal) : Option SafeHTML × Option GoError :=
  if ¬ strStartsWith name "_" then
    (none, some ⟨.invalidBlockName, "blockname needs to start with _"⟩)
  else if name.utf8ByteSize > 255 then
    (none, some ⟨.invalidBlockName, "number of characters in string must not exceed 255"⟩)
  else if name ∉ registry then
    (none, some ⟨.blockNotFound, "template " ++ name ++ " not found in templates-map"⟩)
  else
    let r := execute name data
    (some ⟨r.1⟩, r.2.map fun msg => ⟨.execFailure, msg⟩)

/-- baseName models filepath.Base on the slash-separated paths produced by
getFilePathsInDir: the final path component. -/
def baseName (p : String) : String :=
  (splitOnChar p '/').getLastD p

/-- trimExt models strings.TrimSuffix(f, path.Ext(f)): drop the suffix that
starts at the final dot, when a dot is present. -/
def trimExt (name : String) : String :=
  match splitOnChar name '.' with
  | [] => name
  | [x] => x
  | parts => String.intercalate "." parts.dropLast

/-- fileStem is the layoutName / pageName / blockName computation of
parseTemplates: filepath.Base followed by trimming the extension. -/
def fileStem (p : String) : String :=
  trimExt (baseName p)

/-- BuildEnv abstracts the collaborators of one parseTemplates call: the
three directory listings (getFilePathsInDir results, which may fail), the
external template parser (parseNewTemplateWithFuncMap over a file list,
returning an error message on failure), and for each block file the names
of the template definitions with a non-empty parse tree found inside it
(what definedTemplatesContain inspects). -/
structure BuildEnv where
  layoutsDir : Except String (List String)
  pagesDir : Except String (List String)
  blocksDir : Except String (List String)
  parseFS : List String → Option String
  definedTemplates : String → List String

/-- definedTemplatesContain embeds templates.go lines 357-381 on the
abstraction: whether the parsed block file contains a definition with the
given name. -/
def definedTemplatesContain (env : BuildEnv) (file : String) (name : String) : Bool :=
  (env.definedTemplates file).contains name

/-- BuildError mirrors the distinct error returns of parseTemplates,
templates.go lines 290-355, carrying the data interpolated into each
fmt.Errorf call. -/
inductive BuildError where
  | readLayouts (e : String)
  | readPages (e : String)
  | readBlocks (e : String)
  | noLayouts
  | parseFailed (ctx : String) (e : String)
  | blockInvalid (blockFilename : String) (definedName : String)
  deriving DecidableEq

/-- BuildError.message renders each build error exactly as the Go format
strings of parseTemplates do. -/
def BuildError.message : BuildError → String
  | .readLayouts e => "reading layout files: " ++ e
  | .readPages e => "reading pages: " ++ e
  | .readBlocks e => "reading shared blocks: " ++ e
  | .noLayouts => "you need at least one layout"
  | .parseFailed ctx e => ctx ++ ": " ++ e
  | .blockInvalid f n => "error reason 1: block already defined as key or reason 2: the filename doesn't match a definition within the file block_filename " ++ f ++ " defined_name " ++ n

/-- layoutPageLoop embeds the inner page loop of the layout x page family,
templates.go lines 311-322, for one fixed layout file. -/
def layoutPageLoop (env : BuildEnv) (blocks : List String) (layoutFilePath : String)
    (reg : Registry) : List String → Registry × Option BuildError
  | [] => (reg, none)
  | pageFilePath :: rest =>
    let files := blocks ++ [pageFilePath, layoutFilePath]
    let layoutName := fileStem layoutFilePath
    let pageName := fileStem pageFilePath
    match env.parseFS files with
    | some e => (reg, some (.parseFailed pageName e))
    | none =>
      layoutPageLoop env blocks layoutFilePath
        (registryInsert reg (layoutName ++ ":" ++ pageName)) rest

/-- layoutsLoop embeds the outer layout loop of templates.go lines 310-323. -/
def layoutsLoop (env : BuildEnv) (blocks pages : List String)
    (reg : Registry) : List String → Registry × Option BuildError
  | [] => (reg, none)
  | layoutFilePath :: rest =>
    match layoutPageLoop env blocks layoutFilePath reg pages with
    | (reg', some e) => (reg', some e)
    | (reg', none) => layoutsLoop env blocks pages reg' rest

/-- pageOnlyLoop embeds the page-only loop of templates.go lines 325-334,
registering a ":page" key per page. -/
def pageOnlyLoop (env : BuildEnv) (blocks : List String)
    (reg : Registry) : List String → Registry × Option BuildError
  | [] => (reg, none)
  | pageFilePath :: rest =>
    let files := blocks ++ [pageFilePath]
    let pageName := fileStem pageFilePath
    match env.parseFS files with
    | some e => (reg, some (.parseFailed pageName e))
    | none => pageOnlyLoop env blocks (registryInsert reg (":" ++ pageName)) rest

/-- blocksLoop embeds the block loop of templates.go lines 336-353: parse
the single file, derive the underscore-prefixed key from the filename, and
fail when the key already exists or the file lacks a definition of exactly
that name; the error carries the block's filename and the filename-derived
name (the Go format string labels them block_filename and defined_name). -/
def blocksLoop (env : BuildEnv) (reg : Registry) :
    List String → Registry × Option BuildError
  | [] => (reg, none)
  | blockFilePath :: rest =>
    let blockFilename := baseName blockFilePath
    let blockName := trimExt blockFilename
    match env.parseFS [blockFilePath] with
    | some e => (reg, some (.parseFailed blockFilePath e))
    | none =>
      let prefixedBlockName := if strStartsWith blockName "_" then blockName else "_" ++ blockName
      if prefixedBlockName ∈ reg ∨ ¬ definedTemplatesContain env blockFilePath prefixedBlockName then
        (reg, some (.blockInvalid blockFilename blockName))
      else blocksLoop env (registryInsert reg prefixedBlockName) rest

/-- parseTemplates embeds templates.go lines 290-355: read the three
directories, require at least one layout, then run the three registration
loops, threading a registry that starts empty because line 291 assigns a
fresh map to t.templates before anything else happens. -/
def parseTemplates (env : BuildEnv) : Registry × Option BuildError :=
  let templates : Registry := []
  match env.layoutsDir with
  | .error e => (templates, some (.readLayouts e))
  | .ok layouts =>
    match env.pagesDir with
    | .error e => (templates, some (.readPages e))
    | .ok pages =>
      match env.blocksDir with
      | .error e => (templates, some (.readBlocks e))
      | .ok blocks =>
        if layouts.length = 0 then (templates, some .noLayouts)
        else
          match layoutsLoop env blocks pages templates layouts with
          | (reg, some e) => (reg, some e)
          | (reg, none) =>
            match pageOnlyLoop env blocks reg pages with
            | (reg', some e) => (reg', some e)
            | (reg', none) => blocksLoop env reg' blocks

/-- parseTemplatesOn is the method call on a Templates value whose current
registry is the given one: line 291 of templates.go overwrites t.templates
with a fresh empty map before building, so the previous registry does not
influence the result and is not restored on failure. -/
def parseTemplatesOn (env : BuildEnv) (_current : Registry) : Registry × Option BuildError :=
  parseTemplates env

/-- longUnderscoreName is a concrete 256-byte block name: an underscore
followed by 255 letters a, exceeding the 255-byte limit. -/
def longUnderscoreName : String :=
  "_" ++ String.mk (List.replicate 255 'a')

/-- envScenario is the spec's concrete build scenario: layouts application
and special, page home, block _header, with every parse succeeding and the
block file defining exactly _header. -/
def envScenario : BuildEnv where
  layoutsDir := .ok ["layouts/application.gohtml", "layouts/special.gohtml"]
  pagesDir := .ok ["pages/home.gohtml"]
  blocksDir := .ok ["blocks/_header.gohtml"]
  parseFS := fun _ => none
  definedTemplates := fun f => if f = "blocks/_header.gohtml" then ["_header"] else []

/-- envMismatch is a build whose only block file mismatch.gohtml defines a
template named _actual instead of the expected _mismatch. -/
def envMismatch : BuildEnv where
  layoutsDir := .ok ["layouts/l.gohtml"]
  pagesDir := .ok []
  blocksDir := .ok ["blocks/mismatch.gohtml"]
  parseFS := fun _ => none
  definedTemplates := fun f => if f = "blocks/mismatch.gohtml" then ["_actual"] else []

/-- envPartial is a build with one layout and two pages where parsing any
combination that involves pages/b.gohtml fails, so the build errors out
after having already registered the key of the first page. -/
def envPartial : BuildEnv where
  layoutsDir := .ok ["layouts/l.gohtml"]
  pagesDir := .ok ["pages/a.gohtml", "pages/b.gohtml"]
  blocksDir := .ok []
  parseFS := fun files => if "pages/b.gohtml" ∈ files then some "syntax error" else none
  definedTemplates := fun _ => []

/-- envNoLayouts is a build with zero layout files but with page and block
files present. -/
def envNoLayouts : BuildEnv where
  layoutsDir := .ok []
  pagesDir := .ok ["pages/home.gohtml"]
  blocksDir := .ok ["blocks/_header.gohtml"]
  parseFS := fun _ => none
  definedTemplates := fun f => if f = "blocks/_header.gohtml" then ["_header"] else []

/-- prefixedStem names the composite key a block file registers under: the
filename stem, with an underscore prefixed when the stem lacks one, exactly
as blocksLoop computes it inline. -/
def prefixedStem (p : String) : String :=
  let n := fileStem p
  if strStartsWith n "_" then n else "_" ++ n

/-- localsStep is the write performed for one complete key/value pair of
Locals: store the value under the fmt.Sprint of the key. -/
def localsStep (m : GoMap) (p : GoVal × GoVal) : GoMap :=
  mapSet m (goSprint p.1) p.2

/-- C9: each of the seven trusted converters maps the nil value to its
sink's trusted wrapper of the empty string and any non-nil value to the
trusted wrapper of the value's fmt.Sprint representation, verbatim. -/
theorem trusted_converters_spec (v : GoVal) :
    (trustedHTML GoVal.nil = ⟨""⟩ ∧ (v ≠ GoVal.nil → trustedHTML v = ⟨goSprint v⟩)) ∧
    (trustedScript GoVal.nil = ⟨""⟩ ∧ (v ≠ GoVal.nil → trustedScript v = ⟨goSprint v⟩)) ∧
    (trustedStyle GoVal.nil = ⟨""⟩ ∧ (v ≠ GoVal.nil → trustedStyle v = ⟨goSprint v⟩)) ∧
    (trustedStyleSheet GoVal.nil = ⟨""⟩ ∧ (v ≠ GoVal.nil → trustedStyleSheet v = ⟨goSprint v⟩)) ∧
    (trustedURL GoVal.nil = ⟨""⟩ ∧ (v ≠ GoVal.nil → trustedURL v = ⟨goSprint v⟩)) ∧
    (trustedResourceURL GoVal.nil = ⟨""⟩ ∧ (v ≠ GoVal.nil → trustedResourceURL v = ⟨goSprint v⟩)) ∧
    (trustedIdentifier GoVal.nil = ⟨""⟩ ∧ (v ≠ GoVal.nil → trustedIdentifier v = ⟨goSprint v⟩)) := by
  refine ⟨⟨rfl, fun h => ?_⟩, ⟨rfl, fun h => ?_⟩, ⟨rfl, fun h => ?_⟩, ⟨rfl, fun h => ?_⟩,
    ⟨rfl, fun h => ?_⟩, ⟨rfl, fun h => ?_⟩, ⟨rfl, fun h => ?_⟩⟩ <;>
    simp [trustedHTML, trustedScript, trustedStyle, trustedStyleSheet, trustedURL,
      trustedResourceURL, trustedIdentifier, h]

/-- Witness for trusted_converters_spec at a concrete non-nil value. -/
theorem trusted_converters_spec_witness :
    GoVal.str "<b>hi</b>" ≠ GoVal.nil ∧
    trustedHTML (GoVal.str "<b>hi</b>") = ⟨"<b>hi</b>"⟩ :=
  ⟨by decide, ((trusted_converters_spec (GoVal.str "<b>hi</b>")).1.2 (by decide)).trans rfl⟩

/-- C1: for every non-empty request name the resolution of (lookup key,
entry point) is a pure decision over four mutually exclusive shapes: a
leading underscore resolves to (name, name); a leading colon resolves to
(name, "page"); a colon elsewhere resolves to (name, "layout") regardless
of any layout override; otherwise the key joins the contextual override
(when present, taking precedence over the configured default layout) or
else the default layout with the name, with entry point "layout". -/
theorem executeTemplate_name_resolution (defaultLayout : String)
    (layoutOverride : Option String) (name : String) (_hne : name ≠ "") :
    (strStartsWith name "_" = true →
      executeTemplateResolve defaultLayout layoutOverride name = (name, name)) ∧
    (strStartsWith name "_" = false → strStartsWith name ":" = true →
      executeTemplateResolve defaultLayout layoutOverride name = (name, "page")) ∧
    (strStartsWith name "_" = false → strStartsWith name ":" = false → strContainsChar name ':' = true →
      executeTemplateResolve defaultLayout layoutOverride name = (name, "layout")) ∧
    (strStartsWith name "_" = false → strStartsWith name ":" = false → strContainsChar name ':' = false →
      executeTemplateResolve defaultLayout layoutOverride name =
        ((layoutOverride.getD defaultLayout) ++ ":" ++ name, "layout")) := by
  refine ⟨fun h1 => ?_, fun h1 h2 => ?_, fun h1 h2 h3 => ?_, fun h1 h2 h3 => ?_⟩
  · simp [executeTemplateResolve, h1]
  · simp [executeTemplateResolve, h1, h2]
  · simp [executeTemplateResolve, h1, h2, h3]
  · cases layoutOverride <;> simp [executeTemplateResolve, h1, h2, h3]

/-- Witness for executeTemplate_name_resolution: a plain page name with a
contextual override resolves to the override's composite key. -/
theorem executeTemplate_name_resolution_witness :
    "home" ≠ "" ∧
    executeTemplateResolve "application" (some "special") "home" = ("special:home", "layout") :=
  ⟨by decide,
    ((executeTemplate_name_resolution "application" (some "special") "home"
      (by decide)).2.2.2 (by decide) (by decide) (by decide)).trans (by decide)⟩

/-- C4 counterexample: with default layout "application", no override and
an empty registry, the empty request name is looked up under the key
"application:" with no substitution of a literal "error" name, so the
NotFound error does not carry the key "application:error" the claim
demands. -/
theorem executeTemplate_empty_name_counterexample :
    executeTemplate "application" none [] "" =
      .error ⟨.templateNotFound, "application:"⟩ ∧
    ("application:" : String) ≠ "application:error" :=
  ⟨rfl, by decide⟩

/-- C4 amended: the empty name is not substituted; it flows through the
implicit-layout branch producing the key override-or-default followed by a
colon, and every lookup miss returns ErrTemplateNotFound carrying exactly
the attempted composite key. -/
theorem executeTemplate_notfound_exact_key (defaultLayout : String)
    (layoutOverride : Option String) (registry : Registry) (name : String) :
    ((executeTemplateResolve defaultLayout layoutOverride name).1 ∉ registry →
      executeTemplate defaultLayout layoutOverride registry name =
        .error ⟨.templateNotFound, (executeTemplateResolve defaultLayout layoutOverride name).1⟩) ∧
    (name = "" →
      (executeTemplateResolve defaultLayout layoutOverride name).1 =
        (layoutOverride.getD defaultLayout) ++ ":") := by
  constructor
  · intro h
    simp [executeTemplate, h]
  · intro h
    subst h
    have e1 : strStartsWith "" "_" = false := by decide
    have e2 : strStartsWith "" ":" = false := by decide
    have e3 : strContainsChar "" ':' = false := by decide
    cases layoutOverride <;> simp [executeTemplateResolve, e1, e2, e3, String.append_empty]

/-- Witness for executeTemplate_notfound_exact_key at the empty name and
empty registry. -/
theorem executeTemplate_notfound_exact_key_witness :
    (executeTemplateResolve "application" none "").1 ∉ ([] : Registry) ∧
    executeTemplate "application" none [] "" =
      .error ⟨.templateNotFound, (executeTemplateResolve "application" none "").1⟩ ∧
    (executeTemplateResolve "application" none "").1 = "application" ++ ":" :=
  ⟨by decide,
    (executeTemplate_notfound_exact_key "application" none [] "").1 (by decide),
    (executeTemplate_notfound_exact_key "application" none [] "").2 rfl⟩

/-- C3: RenderBlockAsHTMLString checks the leading underscore first, then
the 255-byte length bound, then registry membership — each failure
producing the corresponding error independently of later checks and, for
the two shape checks, independently of the registry — and on a registered
name executes that unit's entry point named name and returns the buffer
contents wrapped verbatim as trusted HTML. -/
theorem renderBlock_spec (registry : Registry)
    (execute : String → GoVal → String × Option String) (name : String) (data : GoVal) :
    (strStartsWith name "_" = false →
      renderBlockAsHTMLString registry execute name data =
        (none, some ⟨.invalidBlockName, "blockname needs to start with _"⟩)) ∧
    (strStartsWith name "_" = true → name.utf8ByteSize > 255 →
      renderBlockAsHTMLString registry execute name data =
        (none, some ⟨.invalidBlockName, "number of characters in string must not exceed 255"⟩)) ∧
    (strStartsWith name "_" = true → name.utf8ByteSize ≤ 255 → name ∉ registry →
      renderBlockAsHTMLString registry execute name data =
        (none, some ⟨.blockNotFound, "template " ++ name ++ " not found in templates-map"⟩)) ∧
    (strStartsWith name "_" = true → name.utf8ByteSize ≤ 255 → name ∈ registry →
      renderBlockAsHTMLString registry execute name data =
        (some ⟨(execute name data).1⟩,
          (execute name data).2.map fun msg => ⟨.execFailure, msg⟩)) := by
  refine ⟨fun h1 => ?_, fun h1 h2 => ?_, fun h1 h2 h3 => ?_, fun h1 h2 h3 => ?_⟩
  · simp [renderBlockAsHTMLString, h1]
  · simp [renderBlockAsHTMLString, h1, h2]
  · simp [renderBlockAsHTMLString, h1, h3, Nat.not_lt.mpr h2]
  · simp [renderBlockAsHTMLString, h1, h3, Nat.not_lt.mpr h2]

/-- Witness for renderBlock_spec: a registered block renders to its
executor's buffer contents wrapped as trusted HTML. -/
theorem renderBlock_spec_witness :
    (strStartsWith "_header" "_" = true ∧ "_header".utf8ByteSize ≤ 255 ∧
      "_header" ∈ (["_header"] : Registry)) ∧
    renderBlockAsHTMLString ["_header"] (fun _ _ => ("<p>x</p>", none)) "_header" GoVal.nil =
      (some ⟨"<p>x</p>"⟩, none) :=
  ⟨⟨by decide, by decide, by decide⟩,
    ((renderBlock_spec ["_header"] (fun _ _ => ("<p>x</p>", none)) "_header" GoVal.nil).2.2.2
      (by decide) (by decide) (by decide)).trans rfl⟩

set_option maxRecDepth 8000 in
/-- C8 counterexample: the missing-underscore rejection and the
over-255-byte rejection both wrap the same sentinel ErrInvalidBlockName, so
the two rejections are not distinguishable from one another by error kind. -/
theorem renderBlock_error_kind_counterexample :
    (renderBlockAsHTMLString [] (fun _ _ => ("", none)) "x" GoVal.nil).2.map GoError.kind =
      some ErrKind.invalidBlockName ∧
    (renderBlockAsHTMLString [] (fun _ _ => ("", none)) longUnderscoreName GoVal.nil).2.map
        GoError.kind = some ErrKind.invalidBlockName ∧
    (renderBlockAsHTMLString [] (fun _ _ => ("", none)) "x" GoVal.nil).2.map GoError.kind =
      (renderBlockAsHTMLString [] (fun _ _ => ("", none)) longUnderscoreName GoVal.nil).2.map
        GoError.kind := by
  refine ⟨rfl, ?_, ?_⟩ <;> rfl

/-- C8 amended: both shape rejections of RenderBlockAsHTMLString fail with
the same error kind ErrInvalidBlockName and are distinguishable only by
their message text; the kind is however distinct from the ErrBlockNotFound
kind used for registry misses. -/
theorem renderBlock_error_kinds (registry : Registry)
    (execute : String → GoVal → String × Option String) (name : String) (data : GoVal) :
    (strStartsWith name "_" = false →
      (renderBlockAsHTMLString registry execute name data).2 =
        some ⟨.invalidBlockName, "blockname needs to start with _"⟩) ∧
    (strStartsWith name "_" = true → name.utf8ByteSize > 255 →
      (renderBlockAsHTMLString registry execute name data).2 =
        some ⟨.invalidBlockName, "number of characters in string must not exceed 255"⟩) ∧
    ("blockname needs to start with _" : String) ≠
      "number of characters in string must not exceed 255" ∧
    ErrKind.invalidBlockName ≠ ErrKind.blockNotFound := by
  refine ⟨fun h1 => ?_, fun h1 h2 => ?_, by decide, by decide⟩
  · simp [renderBlockAsHTMLString, h1]
  · simp [renderBlockAsHTMLString, h1, h2]

set_option maxRecDepth 8000 in
/-- Witness for renderBlock_error_kinds at the two concrete rejected
names. -/
theorem renderBlock_error_kinds_witness :
    (strStartsWith "x" "_" = false ∧
      (renderBlockAsHTMLString [] (fun _ _ => ("", none)) "x" GoVal.nil).2 =
        some ⟨.invalidBlockName, "blockname needs to start with _"⟩) ∧
    (strStartsWith longUnderscoreName "_" = true ∧ longUnderscoreName.utf8ByteSize > 255 ∧
      (renderBlockAsHTMLString [] (fun _ _ => ("", none)) longUnderscoreName GoVal.nil).2 =
        some ⟨.invalidBlockName, "number of characters in string must not exceed 255"⟩) :=
  ⟨⟨by decide, (renderBlock_error_kinds [] (fun _ _ => ("", none)) "x" GoVal.nil).1 (by decide)⟩,
    ⟨by decide, by decide,
      (renderBlock_error_kinds [] (fun _ _ => ("", none)) longUnderscoreName GoVal.nil).2.1
        (by decide) (by decide)⟩⟩

/-- C7: when the layouts directory lists no files, the build fails with the
distinct "you need at least one layout" error, whatever the page and block
directories contain. -/
theorem parseTemplates_no_layouts (env : BuildEnv) (pages blocks : List String)
    (hl : env.layoutsDir = .ok []) (hp : env.pagesDir = .ok pages)
    (hb : env.blocksDir = .ok blocks) :
    parseTemplates env = ([], some .noLayouts) ∧
    BuildError.noLayouts.message = "you need at least one layout" := by
  refine ⟨?_, rfl⟩
  simp [parseTemplates, hl, hp, hb]

/-- Witness for parseTemplates_no_layouts on the concrete zero-layout
environment with a page and a block present. -/
theorem parseTemplates_no_layouts_witness :
    (envNoLayouts.layoutsDir = .ok [] ∧
      envNoLayouts.pagesDir = .ok ["pages/home.gohtml"] ∧
      envNoLayouts.blocksDir = .ok ["blocks/_header.gohtml"]) ∧
    parseTemplates envNoLayouts = ([], some .noLayouts) :=
  ⟨⟨rfl, rfl, rfl⟩,
    (parseTemplates_no_layouts envNoLayouts ["pages/home.gohtml"] ["blocks/_header.gohtml"]
      rfl rfl rfl).1⟩

/-- C2 counterexample: a rebuild over envPartial fails after registering
the first page, and the Templates value that previously held the registry
with key "application:home" is left with the partial registry of the failed
build, not with its previous registry. -/
theorem parseTemplates_not_atomic_counterexample :
    parseTemplatesOn envPartial ["application:home"] =
      (["l:a"], some (.parseFailed "b" "syntax error")) ∧
    (["l:a"] : Registry) ≠ ["application:home"] :=
  ⟨rfl, by decide⟩

/-- C2 amended: a failing build still returns an error, but the registry
observable afterwards is the failed build's own partial registry, started
from empty when the build began — the previously installed registry is
discarded, not preserved: the call's outcome never depends on it, and each
directory-read failure and the zero-layout failure leave the registry
empty. -/
theorem parseTemplates_failure_resets (env : BuildEnv) (old : Registry) :
    (∀ old', parseTemplatesOn env old = parseTemplatesOn env old') ∧
    (∀ e, env.layoutsDir = .error e →
      parseTemplatesOn env old = ([], some (.readLayouts e))) ∧
    (∀ ls e, env.layoutsDir = .ok ls → env.pagesDir = .error e →
      parseTemplatesOn env old = ([], some (.readPages e))) ∧
    (∀ ls ps e, env.layoutsDir = .ok ls → env.pagesDir = .ok ps →
      env.blocksDir = .error e →
      parseTemplatesOn env old = ([], some (.readBlocks e))) := by
  refine ⟨fun old' => rfl, fun e he => ?_, fun ls e hl hp => ?_, fun ls ps e hl hp hb => ?_⟩
  · simp [parseTemplatesOn, parseTemplates, he]
  · simp [parseTemplatesOn, parseTemplates, hl, hp]
  · simp [parseTemplatesOn, parseTemplates, hl, hp, hb]

/-- Witness for parseTemplates_failure_resets on a concrete environment
whose layouts directory read fails. -/
theorem parseTemplates_failure_resets_witness :
    (BuildEnv.mk (.error "no such dir") (.ok []) (.ok []) (fun _ => none)
        (fun _ => [])).layoutsDir = .error "no such dir" ∧
    parseTemplatesOn
        (BuildEnv.mk (.error "no such dir") (.ok []) (.ok []) (fun _ => none) (fun _ => []))
        ["application:home"] = ([], some (.readLayouts "no such dir")) :=
  ⟨rfl,
    (parseTemplates_failure_resets
        (BuildEnv.mk (.error "no such dir") (.ok []) (.ok []) (fun _ => none) (fun _ => []))
        ["application:home"]).2.1 "no such dir" rfl⟩

/-- Membership after a registry insertion: the inserted key joins the key
set, everything else is unchanged. -/
theorem mem_registryInsert {m : Registry} {k k' : String} :
    k ∈ registryInsert m k' ↔ k ∈ m ∨ k = k' := by
  unfold registryInsert
  by_cases h : k' ∈ m
  · simp only [if_pos h]
    constructor
    · exact Or.inl
    · rintro (hk | rfl)
      · exact hk
      · exact h
  · simp [if_neg h, List.mem_append]

/-- A successful pass of the inner page loop registers exactly the keys
layout-stem colon page-stem for the pages traversed. -/
theorem layoutPageLoop_success {env : BuildEnv} {blocks : List String} {L : String}
    {reg' : Registry} : ∀ {ps : List String} {reg : Registry},
    layoutPageLoop env blocks L reg ps = (reg', none) → ∀ k,
    (k ∈ reg' ↔ k ∈ reg ∨ ∃ P ∈ ps, k = fileStem L ++ ":" ++ fileStem P) := by
  intro ps
  induction ps with
  | nil =>
    intro reg h k
    simp only [layoutPageLoop, Prod.mk.injEq] at h
    obtain ⟨rfl, -⟩ := h
    simp
  | cons P rest ih =>
    intro reg h k
    rw [layoutPageLoop] at h
    cases hp : env.parseFS (blocks ++ [P, L]) with
    | some e => rw [hp] at h; simp at h
    | none =>
      rw [hp] at h
      rw [ih h k, mem_registryInsert, List.exists_mem_cons_iff]
      exact or_assoc

/-- A successful pass of the outer layout loop registers exactly the keys
of all layout x page combinations traversed. -/
theorem layoutsLoop_success {env : BuildEnv} {blocks pages : List String}
    {reg' : Registry} : ∀ {ls : List String} {reg : Registry},
    layoutsLoop env blocks pages reg ls = (reg', none) → ∀ k,
    (k ∈ reg' ↔ k ∈ reg ∨ ∃ L ∈ ls, ∃ P ∈ pages, k = fileStem L ++ ":" ++ fileStem P) := by
  intro ls
  induction ls with
  | nil =>
    intro reg h k
    simp only [layoutsLoop, Prod.mk.injEq] at h
    obtain ⟨rfl, -⟩ := h
    simp
  | cons L rest ih =>
    intro reg h k
    rw [layoutsLoop] at h
    cases hl : layoutPageLoop env blocks L reg pages with
    | mk reg1 err =>
      cases err with
      | some e => rw [hl] at h; simp at h
      | none =>
        rw [hl] at h
        rw [ih h k, layoutPageLoop_success hl k, List.exists_mem_cons_iff]
        exact or_assoc

/-- A successful pass of the page-only loop registers exactly the keys
colon page-stem for the pages traversed. -/
theorem pageOnlyLoop_success {env : BuildEnv} {blocks : List String}
    {reg' : Registry} : ∀ {ps : List String} {reg : Registry},
    pageOnlyLoop env blocks reg ps = (reg', none) → ∀ k,
    (k ∈ reg' ↔ k ∈ reg ∨ ∃ P ∈ ps, k = ":" ++ fileStem P) := by
  intro ps
  induction ps with
  | nil =>
    intro reg h k
    simp only [pageOnlyLoop, Prod.mk.injEq] at h
    obtain ⟨rfl, -⟩ := h
    simp
  | cons P rest ih =>
    intro reg h k
    rw [pageOnlyLoop] at h
    cases hp : env.parseFS (blocks ++ [P]) with
    | some e => rw [hp] at h; simp at h
    | none =>
      rw [hp] at h
      rw [ih h k, mem_registryInsert, List.exists_mem_cons_iff]
      exact or_assoc

/-- One step of the block loop on a file whose solo parse succeeds, stated
through prefixedStem. -/
theorem blocksLoop_cons_none {env : BuildEnv} {reg : Registry} {B : String}
    {rest : List String} (hp : env.parseFS [B] = none) :
    blocksLoop env reg (B :: rest) =
      if prefixedStem B ∈ reg ∨ ¬ definedTemplatesContain env B (prefixedStem B) then
        (reg, some (.blockInvalid (baseName B) (fileStem B)))
      else blocksLoop env (registryInsert reg (prefixedStem B)) rest := by
  rw [blocksLoop, hp]
  rfl

/-- A successful pass of the block loop registers exactly the
underscore-prefixed stems of the block files traversed. -/
theorem blocksLoop_success {env : BuildEnv} {reg' : Registry} :
    ∀ {bs : List String} {reg : Registry},
    blocksLoop env reg bs = (reg', none) → ∀ k,
    (k ∈ reg' ↔ k ∈ reg ∨ ∃ B ∈ bs, k = prefixedStem B) := by
  intro bs
  induction bs with
  | nil =>
    intro reg h k
    simp only [blocksLoop, Prod.mk.injEq] at h
    obtain ⟨rfl, -⟩ := h
    simp
  | cons B rest ih =>
    intro reg h k
    cases hp : env.parseFS [B] with
    | some e => rw [blocksLoop, hp] at h; simp at h
    | none =>
      rw [blocksLoop_cons_none hp] at h
      by_cases hc : prefixedStem B ∈ reg ∨ ¬ definedTemplatesContain env B (prefixedStem B)
      · rw [if_pos hc] at h; simp at h
      · rw [if_neg hc] at h
        rw [ih h k, mem_registryInsert, List.exists_mem_cons_iff]
        exact or_assoc

/-- C5: after a successful build the registry's key set is exactly the
layout x page composite keys, the colon-page keys, and the
underscore-prefixed block keys; on the concrete scenario with layouts
application and special, page home and block _header the key set is
exactly application:home, special:home, :home, _header. -/
theorem parseTemplates_key_set (env : BuildEnv) (layouts pages blocks : List String)
    (reg : Registry)
    (hl : env.layoutsDir = .ok layouts) (hp : env.pagesDir = .ok pages)
    (hb : env.blocksDir = .ok blocks)
    (hs : parseTemplates env = (reg, none)) :
    (∀ k, k ∈ reg ↔
      (∃ L ∈ layouts, ∃ P ∈ pages, k = fileStem L ++ ":" ++ fileStem P) ∨
      (∃ P ∈ pages, k = ":" ++ fileStem P) ∨
      (∃ B ∈ blocks, k = prefixedStem B)) ∧
    parseTemplates envScenario =
      (["application:home", "special:home", ":home", "_header"], none) := by
  refine ⟨?_, rfl⟩
  intro k
  have heq : parseTemplates env =
      (if layouts.length = 0 then (([] : Registry), some BuildError.noLayouts)
      else
        match layoutsLoop env blocks pages [] layouts with
        | (reg1, some e) => (reg1, some e)
        | (reg1, none) =>
          match pageOnlyLoop env blocks reg1 pages with
          | (reg2, some e) => (reg2, some e)
          | (reg2, none) => blocksLoop env reg2 blocks) := by
    rw [parseTemplates, hl, hp, hb]
  rw [heq] at hs
  by_cases hz : layouts.length = 0
  · rw [if_pos hz] at hs; simp at hs
  · rw [if_neg hz] at hs
    cases h1 : layoutsLoop env blocks pages [] layouts with
    | mk reg1 err1 =>
      rw [h1] at hs
      cases err1 with
      | some e => simp at hs
      | none =>
        have hs2 : (match pageOnlyLoop env blocks reg1 pages with
            | (reg2, some e) => (reg2, some e)
            | (reg2, none) => blocksLoop env reg2 blocks) = (reg, none) := hs
        cases h2 : pageOnlyLoop env blocks reg1 pages with
        | mk reg2 err2 =>
          rw [h2] at hs2
          cases err2 with
          | some e => simp at hs2
          | none =>
            have h3 : blocksLoop env reg2 blocks = (reg, none) := hs2
            rw [blocksLoop_success h3 k, pageOnlyLoop_success h2 k,
              layoutsLoop_success h1 k]
            simp only [List.not_mem_nil, false_or]
            exact or_assoc

/-- Witness for parseTemplates_key_set on the concrete scenario: the key
application:home is in the registry and the key application:missing is
not. -/
theorem parseTemplates_key_set_witness :
    (envScenario.layoutsDir = .ok ["layouts/application.gohtml", "layouts/special.gohtml"] ∧
      parseTemplates envScenario =
        (["application:home", "special:home", ":home", "_header"], none)) ∧
    ("application:home" ∈ (["application:home", "special:home", ":home", "_header"] : Registry) ↔
      (∃ L ∈ ["layouts/application.gohtml", "layouts/special.gohtml"],
        ∃ P ∈ ["pages/home.gohtml"], "application:home" = fileStem L ++ ":" ++ fileStem P) ∨
      (∃ P ∈ ["pages/home.gohtml"], "application:home" = ":" ++ fileStem P) ∨
      (∃ B ∈ ["blocks/_header.gohtml"], "application:home" = prefixedStem B)) :=
  ⟨⟨rfl, rfl⟩,
    (parseTemplates_key_set envScenario
      ["layouts/application.gohtml", "layouts/special.gohtml"] ["pages/home.gohtml"]
      ["blocks/_header.gohtml"]
      ["application:home", "special:home", ":home", "_header"]
      rfl rfl rfl rfl).1 "application:home"⟩

/-- C6 counterexample: the build over envMismatch fails as required, but
the error produced for the block file mismatch.gohtml, whose only
definition is named _actual, carries the filename and the filename-derived
stem "mismatch" — neither field is the found definition name _actual, so
the error does not identify the found definition name. -/
theorem block_validation_error_counterexample :
    parseTemplates envMismatch = ([], some (.blockInvalid "mismatch.gohtml" "mismatch")) ∧
    envMismatch.definedTemplates "blocks/mismatch.gohtml" = ["_actual"] ∧
    ("mismatch" : String) ≠ "_actual" ∧
    ("mismatch.gohtml" : String) ≠ "_actual" :=
  ⟨rfl, rfl, by decide, by decide⟩

/-- C6 amended: for every block file that parses, the build fails at that
file exactly when its underscore-prefixed stem is already a registered key
or the file does not contain a definition named exactly that
underscore-prefixed stem; the error identifies the block's filename and the
filename-derived stem (not the definition name actually found inside the
file), and otherwise the key is registered and the loop continues. -/
theorem blocksLoop_validation (env : BuildEnv) (reg : Registry) (B : String)
    (rest : List String) (hparse : env.parseFS [B] = none) :
    (prefixedStem B ∈ reg ∨ definedTemplatesContain env B (prefixedStem B) = false →
      blocksLoop env reg (B :: rest) =
        (reg, some (.blockInvalid (baseName B) (fileStem B)))) ∧
    (prefixedStem B ∉ reg → definedTemplatesContain env B (prefixedStem B) = true →
      blocksLoop env reg (B :: rest) =
        blocksLoop env (registryInsert reg (prefixedStem B)) rest) := by
  constructor
  · intro hc
    have hc2 : prefixedStem B ∈ reg ∨ ¬ definedTemplatesContain env B (prefixedStem B) = true := by
      rcases hc with hc | hc
      · exact Or.inl hc
      · exact Or.inr (by simp [hc])
    rw [blocksLoop_cons_none hparse, if_pos hc2]
  · intro hm hd
    have hc2 : ¬ (prefixedStem B ∈ reg ∨ ¬ definedTemplatesContain env B (prefixedStem B) = true) := by
      push_neg
      exact ⟨hm, hd⟩
    rw [blocksLoop_cons_none hparse, if_neg hc2]

/-- Witness for blocksLoop_validation on the concrete mismatching block
file. -/
theorem blocksLoop_validation_witness :
    envMismatch.parseFS ["blocks/mismatch.gohtml"] = none ∧
    blocksLoop envMismatch [] ["blocks/mismatch.gohtml"] =
      ([], some (.blockInvalid "mismatch.gohtml" "mismatch")) :=
  ⟨rfl,
    (blocksLoop_validation envMismatch [] "blocks/mismatch.gohtml" [] rfl).1
      (Or.inr (by decide))⟩

/-- Looking a key up after a map write: the written key now maps to the
written value, all other keys are unchanged. -/
theorem mapLookup_mapSet (m : GoMap) (k k' : String) (v : GoVal) :
    mapLookup (mapSet m k v) k' = if k == k' then some v else mapLookup m k' := by
  induction m with
  | nil =>
    simp only [mapSet, mapLookup, List.find?]
    by_cases h : k = k'
    · simp [h]
    · simp [List.find?, show (k == k') = false by simpa using h]
  | cons a rest ih =>
    obtain ⟨ka, va⟩ := a
    simp only [mapSet]
    by_cases h1 : ka = k
    · subst h1
      by_cases h2 : ka = k'
      · simp [mapLookup, List.find?, h2]
      · simp [mapLookup, List.find?, show (ka == k') = false by simpa using h2]
    · by_cases h2 : ka = k'
      · subst h2
        have hkk : (k == ka) = false := by
          simp only [beq_eq_false_iff_ne]
          exact fun hk => h1 hk.symm
        simp [mapLookup, List.find?, if_neg h1, hkk]
      · simp only [if_neg h1]
        simp only [mapLookup, List.find?,
          show (ka == k') = false by simpa using h2] at ih ⊢
        exact ih

/-- The indexed Locals loop started at an even index computes the fold of
the key/value writes over the complete pairs of its argument list. -/
theorem localsLoop_eq_foldl : ∀ (args : List GoVal) (m : GoMap) (key : GoVal) (i : Nat),
    i % 2 = 0 → localsLoop m key i args = (pairsOf args).foldl localsStep m
  | [], m, key, i, _h => by simp [localsLoop, pairsOf]
  | [a], m, key, i, h => by
    have h1 : (i % 2 == 0) = true := by simp [h]
    simp [localsLoop, pairsOf, h1]
  | a :: b :: rest, m, key, i, h => by
    have h1 : (i % 2 == 0) = true := by simp [h]
    have h2 : ((i + 1) % 2 == 0) = false := by
      have : (i + 1) % 2 = 1 := by omega
      simp [this]
    have h3 : (i + 2) % 2 = 0 := by omega
    have ih := localsLoop_eq_foldl rest (mapSet m (goSprint a) b) a (i + 2) h3
    simp only [localsLoop, h1, if_pos, if_true, h2, if_false, Bool.false_eq_true, ite_false,
      ite_true, pairsOf, List.foldl_cons]
    rw [ih]
    rfl

/-- Looking up a key in the fold of key/value writes finds the value of the
last pair whose rendered key matches, falling back to the initial map. -/
theorem mapLookup_foldl (ps : List (GoVal × GoVal)) : ∀ (m : GoMap) (k : String),
    mapLookup (ps.foldl localsStep m) k =
      ((ps.reverse.find? (fun p => goSprint p.1 == k)).map Prod.snd).or (mapLookup m k) := by
  induction ps with
  | nil => intro m k; simp
  | cons p rest ih =>
    intro m k
    simp only [List.foldl_cons, List.reverse_cons]
    rw [ih, List.find?_append]
    cases hf : rest.reverse.find? (fun q => goSprint q.1 == k) with
    | some q => simp [Option.or]
    | none =>
      by_cases hk : (goSprint p.1 == k) = true
      · simp [localsStep, mapLookup_mapSet, List.find?, hk, Option.or]
      · simp [localsStep, mapLookup_mapSet, List.find?, hk, Option.or]

/-- Appending one element to an even-length argument list adds no complete
pair. -/
theorem pairsOf_append_single : ∀ (args : List GoVal) (x : GoVal), args.length % 2 = 0 →
    pairsOf (args ++ [x]) = pairsOf args
  | [], _x, _h => rfl
  | [a], _x, h => absurd h (by simp)
  | a :: b :: rest, x, h => by
    have h2 : rest.length % 2 = 0 := by
      simp only [List.length_cons] at h
      omega
    simp only [List.cons_append, pairsOf]
    rw [show rest.append [x] = rest ++ [x] from rfl, pairsOf_append_single rest x h2]

/-- C10: for every argument list, looking any key up in the map built by
Locals finds the value of the last complete pair whose fmt.Sprint rendering
of the key matches, and nothing else; a trailing unpaired argument appended
to an even-length list produces no entry; and Locals of a single argument
is the empty map. -/
theorem Locals_spec (args : List GoVal) (k : String) (x : GoVal) :
    (mapLookup (Locals args) k =
      ((pairsOf args).reverse.find? (fun p => goSprint p.1 == k)).map Prod.snd) ∧
    (args.length % 2 = 0 → Locals (args ++ [x]) = Locals args) ∧
    Locals [x] = [] := by
  refine ⟨?_, fun h => ?_, rfl⟩
  · rw [Locals, localsLoop_eq_foldl args [] GoVal.nil 0 rfl, mapLookup_foldl]
    simp [mapLookup, List.find?]
  · rw [Locals, Locals, localsLoop_eq_foldl _ [] GoVal.nil 0 rfl,
      localsLoop_eq_foldl _ [] GoVal.nil 0 rfl, pairsOf_append_single args x h]

/-- Witness for Locals_spec: a two-argument list followed by a trailing
unpaired argument yields the same map as the two-argument list alone. -/
theorem Locals_spec_witness :
    ([GoVal.str "k", GoVal.int 1].length % 2 = 0) ∧
    Locals ([GoVal.str "k", GoVal.int 1] ++ [GoVal.str "z"]) =
      Locals [GoVal.str "k", GoVal.int 1] :=
  ⟨by decide, (Locals_spec [GoVal.str "k", GoVal.int 1] "k" (GoVal.str "z")).2.1 (by decide)⟩

end Templates
